import Mathlib

/-!
Verification development for the GA4 reconciliation pipeline in
`functions/ga4-sync/main.py` (class `GA4DataSync`).

The Python source is shallowly embedded below.  Strings are modelled as
`String` / `List Char`, Python `int` as `Int`, Python `float` results of the
engagement-time division as `ℚ` (the float rounding itself is not modelled),
Python dicts as association lists processed in insertion order, and the two
remote warehouses as oracle parameters (success/failure outcome functions and
row lists).  Wall-clock concerns (`check_timeout`, poll loops, sleeps) are not
modelled: every theorem speaks about the values the functions return on the
paths where no timeout fires.
-/

set_option autoImplicit false

namespace GA4Sync

/-! ### Character-list helpers mirroring the Python string operations -/

/-- Substring test: `pat in s` for Python strings, on character lists. -/
def containsSub (pat : List Char) : List Char → Bool
  | [] => pat.isPrefixOf []
  | c :: t => pat.isPrefixOf (c :: t) || containsSub pat t

/-- Drop trailing characters satisfying `p` (the right half of `str.strip`). -/
def dropTrailing (p : Char → Bool) (l : List Char) : List Char :=
  (l.reverse.dropWhile p).reverse

/-- Python `str.strip(chars)`: drop the characters satisfying `p` from both ends. -/
def stripChars (p : Char → Bool) (l : List Char) : List Char :=
  dropTrailing p (l.dropWhile p)

def isSlash (c : Char) : Bool := c == '/'

/-- The whitespace stripped by Python's default `str.strip()` (ASCII part). -/
def pyWhitespace (c : Char) : Bool :=
  c == ' ' || c == '\t' || c == '\n' || c == '\r' || c == '\x0b' || c == '\x0c'

/-! ### A model of CPython `urllib.parse.urlparse`, restricted to the fields
the sync code reads (`netloc` and `path`).  Query and fragment are cut off the
path exactly as `urlsplit` does; the params component is split off the path for
schemes in `uses_params` as `urlparse` does.  The bracketed-IPv6 validation
(which can raise `ValueError`) is not modelled; `normalize_ga4_url` catches
that exception and returns `None`, and every input that would raise has a
netloc different from the configured host, so the modelled result agrees. -/

/-- Characters allowed in a URL scheme (CPython `scheme_chars`). -/
def isSchemeChar (c : Char) : Bool :=
  c.isAlpha || c.isDigit || c == '+' || c == '-' || c == '.'

structure UrlParts where
  scheme : List Char
  netloc : List Char
  path : List Char
deriving DecidableEq

/-- Split a leading `scheme:` off the URL, as `urlsplit` does: the text before
the first `:` must be nonempty, start with an ASCII letter and consist of
scheme characters; otherwise no scheme is recognized. -/
def splitScheme (url : List Char) : List Char × List Char :=
  if url.findIdx (fun c => c == ':') = url.length then ([], url)
  else if 0 < url.findIdx (fun c => c == ':') ∧ (url.headD ' ').isAlpha ∧
      (url.take (url.findIdx (fun c => c == ':'))).all isSchemeChar then
    ((url.take (url.findIdx (fun c => c == ':'))).map Char.toLower,
      url.drop (url.findIdx (fun c => c == ':') + 1))
  else ([], url)

/-- Delimiters ending the netloc in `urlsplit._splitnetloc`. -/
def netlocEnd (c : Char) : Bool := c == '/' || c == '?' || c == '#'

/-- Split a leading `//netloc` off the remainder, as `urlsplit` does (the
netloc is parsed exactly when the remainder starts with `//`). -/
def splitNetloc (url : List Char) : List Char × List Char :=
  match url with
  | a :: b :: rest =>
      if a = '/' ∧ b = '/' then
        (rest.take (rest.findIdx netlocEnd), rest.drop (rest.findIdx netlocEnd))
      else ([], url)
  | _ => ([], url)

/-- Everything strictly before the first occurrence of `c` (the whole list
when `c` is absent); models `s.split(c, 1)[0]`. -/
def cutBefore (c : Char) (l : List Char) : List Char :=
  l.take (l.findIdx (fun x => x == c))

/-- Index of the last occurrence of `c` (Python `str.rfind`), if any. -/
def rfindIdx (c : Char) (l : List Char) : Option Nat :=
  (l.reverse.findIdx? (fun x => x == c)).map (fun k => l.length - 1 - k)

/-- Index of the first occurrence of `c` at or after `start` (Python
`str.find(c, start)`), if any. -/
def findIdxFrom (c : Char) (l : List Char) (start : Nat) : Option Nat :=
  ((l.drop start).findIdx? (fun x => x == c)).map (fun k => k + start)

/-- The path part of CPython `urllib.parse._splitparams` (called only when the
path contains `;`): split at the first `;` of the last path segment. -/
def splitParamsPath (url : List Char) : List Char :=
  if url.contains '/' then
    match rfindIdx '/' url with
    | some j =>
        match findIdxFrom ';' url j with
        | some i => url.take i
        | none => url
    | none => url
  else cutBefore ';' url

/-- Schemes for which `urlparse` splits params off the path (CPython
`uses_params`). -/
def usesParamsSchemes : List (List Char) :=
  ["", "ftp", "hdl", "prospero", "http", "imap", "https", "shttp", "rtsp",
    "rtspu", "sip", "sips", "mms", "sftp", "tel"].map String.toList

/-- The `scheme`/`netloc`/`path` fields of CPython `urlsplit`. -/
def urlsplitChars (url : List Char) : UrlParts :=
  let sr := splitScheme url
  let nr := splitNetloc sr.2
  let afterFrag := cutBefore '#' nr.2
  { scheme := sr.1, netloc := nr.1, path := cutBefore '?' afterFrag }

/-- The `scheme`/`netloc`/`path` fields of CPython `urlparse`. -/
def urlparseChars (url : List Char) : UrlParts :=
  if usesParamsSchemes.contains (urlsplitChars url).scheme ∧
      (urlsplitChars url).path.contains ';' then
    { urlsplitChars url with path := splitParamsPath (urlsplitChars url).path }
  else urlsplitChars url

/-! ### UrlNormalizer -/

/-- The hard-coded content host in `normalize_ga4_url`. -/
def foresightHost : List Char := "www.foresight.jp".toList

/-- The content-section marker checked by `normalize_ga4_url`. -/
def columnMarker : List Char := "/column/".toList

/-- The trailing-slash step of `normalize_ga4_url`:
`if path and not path.endswith('/'): path += '/'`. -/
def normTail (path : List Char) : List Char :=
  if ¬ path.isEmpty ∧ path.getLast? ≠ some '/' then path ++ ['/'] else path

/-- Shallow embedding of `GA4DataSync.normalize_ga4_url` (main.py lines
500-523): reject falsy (empty) input, parse the URL, reject a netloc different
from `www.foresight.jp`, strip `/` from both ends of the path, reject paths
not containing `/column/`, and append a trailing `/` to a nonempty path that
lacks one.  The Python `except` branch (return `None`) is subsumed by the
total parse model, see the note on `urlparseChars`. -/
def normalize_ga4_url (url : String) : Option String :=
  if url.toList.isEmpty then none
  else if (urlparseChars url.toList).netloc ≠ foresightHost then none
  else if ¬ containsSub columnMarker (stripChars isSlash (urlparseChars url.toList).path) then
    none
  else some (String.mk (normTail (stripChars isSlash (urlparseChars url.toList).path)))

/-! ### Association lists standing in for Python dicts -/

/-- First-match lookup in an association list (Python `d.get(k)` /
`k in d`). -/
def alookup {α β : Type} [DecidableEq α] (k : α) : List (α × β) → Option β
  | [] => none
  | kv :: t => if kv.1 = k then some kv.2 else alookup k t

/-- Python dict assignment `d[k] = v`: overwrite in place when the key is
present (keeping its position, last write wins), append otherwise. -/
def dictInsert {α β : Type} [DecidableEq α] (m : List (α × β)) (k : α) (v : β) :
    List (α × β) :=
  match alookup k m with
  | some _ => m.map (fun kv => if kv.1 = k then (k, v) else kv)
  | none => m ++ [(k, v)]

/-! ### Data model -/

/-- One row of a tier query result (`pageviews_data` items in main.py). -/
structure RawMetricAggregate where
  page_location : String
  pageviews : Int
  organic_sessions : Int
  engaged_sessions : Int
  total_engagement_time_msec : Int
  total_sessions : Int
deriving DecidableEq

/-- One value of the mapping dict built by
`get_courses_articles_mapping_optimized`. -/
structure ContentMappingEntry where
  article_id : String
  course_slug : String
  article_link : String
  article_title : String
  current_pageviews : Int
  current_organic_sessions : Int
  current_engaged_sessions : Int
  current_avg_engagement_time : ℚ
deriving DecidableEq

/-- The per-path metric accumulator (`path_metrics` values in
`match_urls_and_aggregate_optimized`). -/
structure PathMetrics where
  pageviews : Int
  organic_sessions : Int
  engaged_sessions : Int
  total_engagement_time_msec : Int
  total_sessions : Int
deriving DecidableEq

/-- One element of `pageviews_updates` (a `MetricsDelta`). -/
structure MetricsDelta where
  article_id : String
  pageviews : Int
  organic_sessions : Int
  engaged_sessions : Int
  avg_engagement_time : ℚ
  course_slug : String
  article_title : String
deriving DecidableEq

/-- The mapping snapshot: pattern string to entry, in insertion order. -/
abbrev Mapping := List (String × ContentMappingEntry)

/-! ### Reconciler: `match_urls_and_aggregate_optimized` (main.py 525-600) -/

/-- The zero-initialized accumulator created on first sight of a path. -/
def initMetrics : PathMetrics := ⟨0, 0, 0, 0, 0⟩

/-- The five `+=` statements of the normalization loop. -/
def addRaw (m : PathMetrics) (r : RawMetricAggregate) : PathMetrics :=
  { pageviews := m.pageviews + r.pageviews
    organic_sessions := m.organic_sessions + r.organic_sessions
    engaged_sessions := m.engaged_sessions + r.engaged_sessions
    total_engagement_time_msec := m.total_engagement_time_msec + r.total_engagement_time_msec
    total_sessions := m.total_sessions + r.total_sessions }

/-- One iteration of the normalization loop body for an already-normalized
path: initialize the accumulator if absent, then add the row's metrics. -/
def addToPathMetrics (pm : List (String × PathMetrics)) (path : String)
    (r : RawMetricAggregate) : List (String × PathMetrics) :=
  match alookup path pm with
  | some _ => pm.map (fun kv => if kv.1 = path then (kv.1, addRaw kv.2 r) else kv)
  | none => pm ++ [(path, addRaw initMetrics r)]

/-- One full iteration of the normalization loop: normalize the row's URL and
drop the row when normalization returns `None`. -/
def aggStep (pm : List (String × PathMetrics)) (item : RawMetricAggregate) :
    List (String × PathMetrics) :=
  match normalize_ga4_url item.page_location with
  | some path => addToPathMetrics pm path item
  | none => pm

/-- The normalization/grouping phase of `match_urls_and_aggregate_optimized`:
normalize each row's URL, drop the row when normalization returns `None`,
group by normalized path summing every numeric field.  The Python code walks
the list in slices of 1000 purely for progress logging, which is the same
traversal order as this fold. -/
def aggregate_ga4 (ga4_data : List RawMetricAggregate) : List (String × PathMetrics) :=
  ga4_data.foldl aggStep []

/-- Average engagement time in seconds, as computed in the matching loop:
`total_engagement_time_msec / (total_sessions * 1000)` when
`total_sessions > 0`, else `0`. -/
def avgEngagementTime (m : PathMetrics) : ℚ :=
  if m.total_sessions > 0 then
    (m.total_engagement_time_msec : ℚ) / ((m.total_sessions : ℚ) * 1000)
  else 0

/-- The materiality test of the matching loop: any nonzero absolute counter
difference, or an average-engagement-time difference above 0.1 seconds. -/
def materialB (e : ContentMappingEntry) (m : PathMetrics) : Bool :=
  let pageviews_diff := |e.current_pageviews - m.pageviews|
  let organic_sessions_diff := |e.current_organic_sessions - m.organic_sessions|
  let engaged_sessions_diff := |e.current_engaged_sessions - m.engaged_sessions|
  let avg_engagement_time_diff := |e.current_avg_engagement_time - avgEngagementTime m|
  decide (pageviews_diff > 0) || decide (organic_sessions_diff > 0) ||
    decide (engaged_sessions_diff > 0) || decide (avg_engagement_time_diff > (1 : ℚ) / 10)

/-- The update record appended for a material matched path, including the
50-character title truncation. -/
def mkDelta (e : ContentMappingEntry) (m : PathMetrics) : MetricsDelta :=
  { article_id := e.article_id
    pageviews := m.pageviews
    organic_sessions := m.organic_sessions
    engaged_sessions := m.engaged_sessions
    avg_engagement_time := avgEngagementTime m
    course_slug := e.course_slug
    article_title :=
      if e.article_title.length > 50 then e.article_title.take 50 ++ "..." else e.article_title }

/-- The matching-loop body for one aggregated path: skip unmatched paths,
emit a delta only when the materiality test passes. -/
def deltaFor (url_patterns : Mapping) (kv : String × PathMetrics) : Option MetricsDelta :=
  match alookup kv.1 url_patterns with
  | none => none
  | some e => if materialB e kv.2 then some (mkDelta e kv.2) else none

/-- Shallow embedding of `GA4DataSync.match_urls_and_aggregate_optimized`:
aggregate by normalized path, then walk the aggregates in insertion order
collecting the material matched deltas. -/
def match_urls_and_aggregate_optimized (ga4_data : List RawMetricAggregate)
    (url_patterns : Mapping) : List MetricsDelta :=
  (aggregate_ga4 ga4_data).filterMap (deltaFor url_patterns)

/-! ### ContentMappingLoader: `get_courses_articles_mapping_optimized`
(main.py 339-498) -/

/-- One row of the courses/articles join query. -/
structure ArticleJoinRow where
  course_slug : String
  article_id : String
  article_link : String
  article_title : String
  current_pageviews : Int
  current_organic_sessions : Int
  current_engaged_sessions : Int
  current_avg_engagement_time : ℚ
deriving DecidableEq

/-- The pattern key built for a join row: `article_link` is stripped of
whitespace and given a trailing `/` when absent, then interpolated as
`course_slug ++ "/column/" ++ article_link`.  Character-list version. -/
def makePatternChars (course_slug article_link : List Char) : List Char :=
  let link := stripChars pyWhitespace article_link
  let link := if link.getLast? = some '/' then link else link ++ ['/']
  course_slug ++ columnMarker ++ link

/-- The pattern key built for a join row, on strings. -/
def makePattern (course_slug article_link : String) : String :=
  String.mk (makePatternChars course_slug.toList article_link.toList)

/-- The mapping entry stored for a join row (its `article_link` field holds
the normalized link). -/
def rowEntry (r : ArticleJoinRow) : ContentMappingEntry :=
  { article_id := r.article_id
    course_slug := r.course_slug
    article_link := String.mk
      (let link := stripChars pyWhitespace r.article_link.toList
       if link.getLast? = some '/' then link else link ++ ['/'])
    article_title := r.article_title
    current_pageviews := r.current_pageviews
    current_organic_sessions := r.current_organic_sessions
    current_engaged_sessions := r.current_engaged_sessions
    current_avg_engagement_time := r.current_avg_engagement_time }

/-- The dict-building loop over the join rows (`mapping[pattern] = {...}`). -/
def buildMapping (rows : List ArticleJoinRow) : Mapping :=
  rows.foldl (fun m r => dictInsert m (makePattern r.course_slug r.article_link) (rowEntry r)) []

/-- Shallow embedding of `GA4DataSync.get_courses_articles_mapping_optimized`.
The remote results are oracle parameters: the two existence-probe counts, the
length of the `basic_query` sanity join, and the main join rows.  Remote
exceptions (also modelled as returning an empty mapping by the `except`
branches) are not separately represented. -/
def get_courses_articles_mapping_optimized (courses_count articles_count : Nat)
    (basic_count : Nat) (rows : List ArticleJoinRow) : Mapping :=
  if courses_count = 0 ∨ articles_count = 0 then []
  else if basic_count = 0 then []
  else buildMapping rows

/-! ### TieredMetricsFetcher, tier 2:
`get_ga4_pageviews_multi_table_fallback` (main.py 184-271) -/

/-- The table-selection step of the fallback tier:
`available_tables[:max(3, GA4_DAYS_BACK)]`.  `ga4_days_back` stands for the
module constant `GA4_DAYS_BACK`. -/
def fallback_tables_to_use (ga4_days_back : Nat) (available_tables : List String) :
    List String :=
  available_tables.take (max 3 ga4_days_back)

/-! ### BatchUpdateDispatcher: `update_pageviews_batch_optimized` and
`update_pageviews_individual_optimized` (main.py 602-703)

The remote warehouse is an oracle: `bulkOk batch` tells whether the one bulk
`UPDATE` statement for `batch` succeeds, `rowOk d` whether the per-row
`UPDATE` for delta `d` succeeds.  Each embedded function returns the list of
deltas actually applied to the articles table (its observable warehouse
effect) next to the counter the Python code keeps; the Python functions
themselves return `None`.  The mid-loop `check_timeout` break of the
individual updater is on the unmodelled wall-clock path. -/

def BULK_INSERT_BATCH_SIZE : Nat := 500

/-- Shallow embedding of `update_pageviews_individual_optimized`: try each
delta in order, count and apply the successes, log and skip the failures.
Returns `(updated_count, applied rows)`. -/
def update_pageviews_individual_optimized (rowOk : MetricsDelta → Bool)
    (pageviews_updates : List MetricsDelta) : Nat × List MetricsDelta :=
  ((pageviews_updates.filter rowOk).length, pageviews_updates.filter rowOk)

/-- The batch loop of `update_pageviews_batch_optimized`, structured by fuel
(any fuel at least the list length gives the loop's behavior): take a batch of
`BULK_INSERT_BATCH_SIZE`, try the bulk statement, on failure fall back to
individual updates; in either case add the whole batch size to
`total_updated`. -/
def update_batch_go (bulkOk : List MetricsDelta → Bool) (rowOk : MetricsDelta → Bool) :
    Nat → List MetricsDelta → Nat × List MetricsDelta
  | 0, _ => (0, [])
  | _, [] => (0, [])
  | fuel + 1, l@(_ :: _) =>
      let batch := l.take BULK_INSERT_BATCH_SIZE
      let rest := l.drop BULK_INSERT_BATCH_SIZE
      let tail := update_batch_go bulkOk rowOk fuel rest
      if bulkOk batch then (batch.length + tail.1, batch ++ tail.2)
      else (batch.length + tail.1, (update_pageviews_individual_optimized rowOk batch).2 ++ tail.2)

/-- Shallow embedding of `update_pageviews_batch_optimized`: `(final value of
the total_updated counter, deltas actually applied)`.  The Python function
returns `None`; the counter is what it logs as the overall update count. -/
def update_pageviews_batch_optimized (bulkOk : List MetricsDelta → Bool)
    (rowOk : MetricsDelta → Bool) (pageviews_updates : List MetricsDelta) :
    Nat × List MetricsDelta :=
  update_batch_go bulkOk rowOk pageviews_updates.length pageviews_updates

/-! ### Pipeline: `sync_pageviews_optimized` (main.py 705-762) -/

/-- The result dict of `sync_pageviews_optimized`.  Keys that a given return
statement does not set are `none` (the Python dict simply lacks them);
`execution_time_seconds` is wall clock and not modelled. -/
structure SyncOutcome where
  status : String
  error : Option String
  total_ga4_records : Option Nat
  mapped_articles : Option Nat
  updated_records : Option Nat
deriving DecidableEq

/-- A pipeline run: its result plus which remote stages were reached. -/
structure SyncRun where
  outcome : SyncOutcome
  fetchInvoked : Bool
  updateInvoked : Bool
deriving DecidableEq

/-- Shallow embedding of `GA4DataSync.sync_pageviews_optimized` on the
exception-free path.  `mapping` is what `get_courses_articles_mapping_optimized`
returned and `ga4_data` what the tiered fetch would return if invoked;
`fetchInvoked`/`updateInvoked` record whether the pipeline reaches the fetch
and the warehouse update (`if pageviews_updates:` guard). -/
def sync_pageviews_optimized (mapping : Mapping) (ga4_data : List RawMetricAggregate) :
    SyncRun :=
  if mapping.isEmpty then
    { outcome := { status := "failed", error := some "No mapping data",
                   total_ga4_records := none, mapped_articles := none, updated_records := none }
      fetchInvoked := false, updateInvoked := false }
  else if ga4_data.isEmpty then
    { outcome := { status := "failed", error := some "No GA4 data",
                   total_ga4_records := none, mapped_articles := none, updated_records := none }
      fetchInvoked := true, updateInvoked := false }
  else
    let pageviews_updates := match_urls_and_aggregate_optimized ga4_data mapping
    { outcome := { status := "success", error := none,
                   total_ga4_records := some ga4_data.length,
                   mapped_articles := some mapping.length,
                   updated_records := some pageviews_updates.length }
      fetchInvoked := true, updateInvoked := ¬ pageviews_updates.isEmpty }

/-- The refreshed snapshot of one entry after the dispatcher has applied
`deltas`: if some delta targets the entry's article id, the entry carries that
delta's freshly written metric values. -/
def updEntry (deltas : List MetricsDelta) (e : ContentMappingEntry) : ContentMappingEntry :=
  match deltas.find? (fun d => d.article_id == e.article_id) with
  | some d =>
      { e with
        current_pageviews := d.pageviews
        current_organic_sessions := d.organic_sessions
        current_engaged_sessions := d.engaged_sessions
        current_avg_engagement_time := d.avg_engagement_time }
  | none => e

/-- Reload of the mapping snapshot after the dispatcher has applied `deltas`
(the bulk statement keys the write by article id).  The 4-decimal formatting
of `avg_engagement_time` in the generated SQL is not modelled. -/
def applyDeltas (deltas : List MetricsDelta) (mapping : Mapping) : Mapping :=
  mapping.map (fun kv => (kv.1, updEntry deltas kv.2))

/-! ### Concrete test vectors used by counterexamples and witnesses -/

/-- A raw URL accepted by the normalizer, and its output. -/
def sampleUrl : String := "https://www.foresight.jp/acct/column/intro/"

def samplePath : String := "acct/column/intro/"

/-- The raw aggregate of the spec's reconciliation scenario, verbatim
(`page_location` has host `example.com`). -/
def scenarioRaw : RawMetricAggregate :=
  ⟨"https://example.com/acct/column/intro/", 120, 40, 30, 900000, 30⟩

/-- The same scenario aggregate with the host the code actually accepts. -/
def scenarioRawFixed : RawMetricAggregate :=
  ⟨"https://www.foresight.jp/acct/column/intro/", 120, 40, 30, 900000, 30⟩

/-- The scenario's mapping entry: `pattern="acct/column/intro/"`,
`currentPageviews=100`, remaining current metrics zero. -/
def scenarioEntry : ContentMappingEntry := ⟨"a1", "acct", "intro/", "T", 100, 0, 0, 0⟩

def scenarioMapping : Mapping := [("acct/column/intro/", scenarioEntry)]

/-- The delta the code produces for the fixed scenario. -/
def scenarioDelta : MetricsDelta := ⟨"a1", 120, 40, 30, 30, "acct", "T"⟩

/-- A join row whose link carries a query string. -/
def queryLinkRow : ArticleJoinRow := ⟨"acct", "a1", "intro?x", "T", 0, 0, 0, 0⟩

/-- A mapping entry and raw row that produce no delta (the raw URL has no
`/column/` segment, so it normalizes to `None`). -/
def quietEntry : ContentMappingEntry := ⟨"a9", "a", "x/", "T", 0, 0, 0, 0⟩

def quietMapping : Mapping := [("a/column/x/", quietEntry)]

def quietGa4 : List RawMetricAggregate :=
  [⟨"https://www.foresight.jp/other/page/", 1, 0, 0, 0, 0⟩]

/-- Two deltas for exercising the dispatcher's fallback path. -/
def deltaA : MetricsDelta := ⟨"a1", 1, 1, 1, 0, "c", "t"⟩

def deltaB : MetricsDelta := ⟨"a2", 2, 2, 2, 0, "c", "t"⟩

/-- A per-row oracle under which only `deltaA`'s individual update succeeds. -/
def rowOkA : MetricsDelta → Bool := fun d => d.article_id == "a1"

/-- A raw row and a matching mapping entry for the materiality statement. -/
def matGa4 : List RawMetricAggregate := [⟨"https://www.foresight.jp/b/column/y/", 7, 0, 0, 0, 0⟩]

def matEntry : ContentMappingEntry := ⟨"a4", "b", "y/", "T", 0, 0, 0, 0⟩

def matMapping : Mapping := [("b/column/y/", matEntry)]

/-- A raw row and a matching mapping entry whose reconciliation produces one
delta. -/
def rerunGa4 : List RawMetricAggregate := [⟨"https://www.foresight.jp/z/column/w/", 5, 0, 0, 0, 0⟩]

def rerunEntry : ContentMappingEntry := ⟨"a7", "z", "w/", "T", 0, 0, 0, 0⟩

def rerunMapping : Mapping := [("z/column/w/", rerunEntry)]

/-! ## Helper lemmas -/

theorem alookup_map_value {β γ : Type} (g : β → γ) (k : String) (l : List (String × β)) :
    alookup k (l.map (fun kv => (kv.1, g kv.2))) = (alookup k l).map g := by
  induction l with
  | nil => rfl
  | cons kv t ih => by_cases h : kv.1 = k <;> simp [alookup, h, ih]

theorem alookup_eq_none_iff {α β : Type} [DecidableEq α] {k : α} {l : List (α × β)} :
    alookup k l = none ↔ k ∉ l.map Prod.fst := by
  induction l with
  | nil => simp [alookup]
  | cons kv t ih =>
      by_cases h : kv.1 = k
      · simp [alookup, h]
      · have h' : ¬ k = kv.1 := fun hh => h hh.symm
        simp [alookup, h, ih, h']

theorem mem_of_alookup_eq_some {α β : Type} [DecidableEq α] {k : α} {v : β}
    {l : List (α × β)} (h : alookup k l = some v) : (k, v) ∈ l := by
  induction l with
  | nil => exact absurd h (by simp [alookup])
  | cons kv t ih =>
      by_cases hk : kv.1 = k
      · rw [alookup, if_pos hk] at h
        exact List.mem_cons.mpr (Or.inl (by rw [← Option.some.inj h, ← hk]))
      · rw [alookup, if_neg hk] at h
        exact List.mem_cons.mpr (Or.inr (ih h))

theorem alookup_eq_some_of_mem_of_nodup {α β : Type} [DecidableEq α] {l : List (α × β)}
    (hn : (l.map Prod.fst).Nodup) {k : α} {v : β} (h : (k, v) ∈ l) :
    alookup k l = some v := by
  induction l with
  | nil => cases h
  | cons kv t ih =>
      rw [List.map_cons, List.nodup_cons] at hn
      rcases List.mem_cons.mp h with h1 | h1
      · rw [alookup, if_pos (by rw [← h1]), ← h1]
      · by_cases hk : kv.1 = k
        · exact absurd (hk ▸ List.mem_map_of_mem Prod.fst h1) hn.1
        · rw [alookup, if_neg hk]
          exact ih hn.2 h1

theorem value_eq_of_mem_of_nodup {α β : Type} [DecidableEq α] {l : List (α × β)}
    (hn : (l.map Prod.fst).Nodup) {k : α} {v v' : β} (h : (k, v) ∈ l)
    (h' : (k, v') ∈ l) : v = v' :=
  Option.some.inj ((alookup_eq_some_of_mem_of_nodup hn h).symm.trans
    (alookup_eq_some_of_mem_of_nodup hn h'))

theorem containsSub_correct {pat l : List Char} :
    containsSub pat l = true ↔ pat <:+: l := by
  induction l with
  | nil => simp [containsSub]
  | cons c t ih => simp [containsSub, List.infix_cons_iff, ih]

theorem containsSub_ne_nil {pat l : List Char} (h : containsSub pat l = true)
    (hp : pat ≠ []) : l ≠ [] := by
  intro hl
  subst hl
  rw [containsSub_correct] at h
  exact hp (by simpa using h)

theorem head?_eq_of_isPre {l₁ l₂ : List Char} {a : Char} (h : l₁ <+: l₂)
    (ha : l₁.head? = some a) : l₂.head? = some a := by
  obtain ⟨t, rfl⟩ := h
  rw [List.head?_append, ha]
  rfl

theorem dropTrailing_isPre (p : Char → Bool) (l : List Char) : dropTrailing p l <+: l := by
  unfold dropTrailing
  refine List.reverse_suffix.mp ?_
  simpa using List.dropWhile_suffix (l := l.reverse) p

theorem head?_stripChars_false {p : Char → Bool} {l : List Char} {a : Char}
    (h : (stripChars p l).head? = some a) : p a = false := by
  have hpre := dropTrailing_isPre p (l.dropWhile p)
  have hd : (l.dropWhile p).head? = some a := head?_eq_of_isPre hpre h
  have h2 := List.head?_dropWhile_not p l
  rw [hd] at h2
  exact h2

/-- Inversion of a defined normalizer output. -/
theorem normalize_eq_some_inv {u p : String} (h : normalize_ga4_url u = some p) :
    (urlparseChars u.toList).netloc = foresightHost ∧
    containsSub columnMarker (stripChars isSlash (urlparseChars u.toList).path) = true ∧
    p.toList = normTail (stripChars isSlash (urlparseChars u.toList).path) := by
  unfold normalize_ga4_url at h
  split_ifs at h with h1 h2 h3
  exact ⟨not_not.mp h2, h3, by rw [← Option.some.inj h]; rfl⟩

/-- Every defined output still contains the `/column/` marker. -/
theorem normalize_some_marker {u p : String} (h : normalize_ga4_url u = some p) :
    containsSub columnMarker p.toList = true := by
  obtain ⟨-, hcol, hp⟩ := normalize_eq_some_inv h
  rw [hp]
  unfold normTail
  split_ifs with h4
  · rw [containsSub_correct] at hcol ⊢
    exact hcol.trans ⟨[], ['/'], by simp⟩
  · exact hcol

/-- The stripped path of a defined output is nonempty. -/
theorem normalize_some_stripped_ne_nil {u p : String} (h : normalize_ga4_url u = some p) :
    stripChars isSlash (urlparseChars u.toList).path ≠ [] := by
  obtain ⟨-, hcol, -⟩ := normalize_eq_some_inv h
  exact containsSub_ne_nil hcol (by decide)

/-- Every defined output ends with a slash. -/
theorem normalize_some_getLast {u p : String} (h : normalize_ga4_url u = some p) :
    p.toList.getLast? = some '/' := by
  obtain ⟨-, hcol, hp⟩ := normalize_eq_some_inv h
  have hne := normalize_some_stripped_ne_nil h
  rw [hp]
  unfold normTail
  split_ifs with h4
  · exact List.getLast?_concat _
  · rcases not_and_or.mp h4 with h5 | h5
    · exact absurd (List.isEmpty_iff.mp (not_not.mp h5)) hne
    · exact not_not.mp h5

/-- Every defined output starts with a character other than a slash. -/
theorem normalize_some_head {u p : String} (h : normalize_ga4_url u = some p) :
    p.toList.head? ≠ some '/' := by
  obtain ⟨-, -, hp⟩ := normalize_eq_some_inv h
  have hne := normalize_some_stripped_ne_nil h
  intro hhead
  have hstrip : (stripChars isSlash (urlparseChars u.toList).path).head? = some '/' := by
    rw [hp] at hhead
    unfold normTail at hhead
    split_ifs at hhead with h4
    · rw [List.head?_append] at hhead
      cases hph : (stripChars isSlash (urlparseChars u.toList).path).head? with
      | none => exact absurd (List.head?_eq_none_iff.mp hph) hne
      | some a =>
          rw [hph] at hhead
          simp only [Option.or_some] at hhead
          exact hhead
    · exact hhead
  have := head?_stripChars_false hstrip
  simp [isSlash] at this

/-- The output of the normalizer, as a character list, is nonempty. -/
theorem normalize_some_toList_ne_nil {u p : String} (h : normalize_ga4_url u = some p) :
    p.toList ≠ [] :=
  containsSub_ne_nil (normalize_some_marker h) (by decide)

theorem splitScheme_snd_suffix (url : List Char) : (splitScheme url).2 <:+ url := by
  unfold splitScheme
  split_ifs
  · exact List.suffix_refl url
  · exact List.drop_suffix _ _
  · exact List.suffix_refl url

theorem splitNetloc_fst_eq_nil {m : List Char} (h : ¬ ['/', '/'] <+: m) :
    (splitNetloc m).1 = [] := by
  match m with
  | [] => rfl
  | [a] => rfl
  | a :: b :: r =>
      rw [splitNetloc]
      rw [if_neg]
      intro hab
      exact h ⟨r, by rw [hab.1, hab.2]; rfl⟩

theorem urlparseChars_netloc (l : List Char) :
    (urlparseChars l).netloc = (urlsplitChars l).netloc := by
  unfold urlparseChars
  split <;> rfl

/-- A character list with no `//` substring parses with an empty netloc. -/
theorem netloc_eq_nil_of_no_doubleSlash {l : List Char}
    (h : containsSub ['/', '/'] l = false) : (urlparseChars l).netloc = [] := by
  rw [urlparseChars_netloc]
  show (splitNetloc (splitScheme l).2).1 = []
  apply splitNetloc_fst_eq_nil
  intro hpre
  obtain ⟨t, ht⟩ := hpre
  obtain ⟨s, hs⟩ := splitScheme_snd_suffix l
  have : containsSub ['/', '/'] l = true := by
    rw [containsSub_correct]
    exact ⟨s, t, by rw [← hs, ← ht, List.append_assoc]⟩
  rw [h] at this
  cases this

/-! ## C9 -/

/-- C9: `normalize_ga4_url` is total by construction (encoded as a Lean
function returning `Option String`, with the parser's possible `ValueError`
absorbed as in the Python `except` branch), and every defined output is a
well-formed join key: it contains the `/column/` segment, ends with `/` and
does not begin with `/`. -/
theorem normalize_output_wellformed (u p : String) (h : normalize_ga4_url u = some p) :
    containsSub columnMarker p.toList = true ∧
    p.toList.getLast? = some '/' ∧ p.toList.head? ≠ some '/' :=
  ⟨normalize_some_marker h, normalize_some_getLast h, normalize_some_head h⟩

/-- Witness for C9 at a concrete accepted URL. -/
theorem normalize_output_wellformed_witness :
    normalize_ga4_url sampleUrl = some samplePath ∧
    (containsSub columnMarker samplePath.toList = true ∧
      samplePath.toList.getLast? = some '/' ∧ samplePath.toList.head? ≠ some '/') :=
  ⟨by decide, normalize_output_wellformed sampleUrl samplePath (by decide)⟩

/-! ## C3 -/

/-- C3 counterexample: the normalizer maps the raw URL
`https://www.foresight.jp/acct/column/intro/` to the path
`acct/column/intro/`, but re-normalizing that defined output yields `none`
(the bare path has no `www.foresight.jp` host), not the output unchanged, so
`normalize` is not idempotent on its own defined outputs. -/
theorem normalize_renormalize_counterexample :
    normalize_ga4_url sampleUrl = some samplePath ∧
    normalize_ga4_url samplePath ≠ some samplePath := by
  constructor
  · decide
  · decide

/-- C3 amended: for every raw URL `u` on which `normalize_ga4_url` returns a
path `p`, if `p` contains no `//` substring (which holds for every output
whose source path has no empty segment and no embedded scheme-like prefix),
then re-normalizing `p` returns `none`: the output carries no host, so the
`www.foresight.jp` netloc check fails.  In particular the normalizer is not
idempotent on its defined outputs. -/
theorem normalize_renormalize_none (u p : String) (h : normalize_ga4_url u = some p)
    (hds : containsSub ['/', '/'] p.toList = false) :
    normalize_ga4_url p = none := by
  have hne : p.toList ≠ [] := normalize_some_toList_ne_nil h
  have hnet : (urlparseChars p.toList).netloc = [] := netloc_eq_nil_of_no_doubleSlash hds
  have hhost : ([] : List Char) ≠ foresightHost := by decide
  unfold normalize_ga4_url
  rw [if_neg (by simp only [List.isEmpty_iff]; exact hne), if_pos (by rw [hnet]; exact hhost)]

/-- Witness for C3's amended theorem at the sample URL. -/
theorem normalize_renormalize_none_witness :
    (normalize_ga4_url sampleUrl = some samplePath ∧
      containsSub ['/', '/'] samplePath.toList = false) ∧
    normalize_ga4_url samplePath = none :=
  ⟨⟨by decide, by decide⟩,
    normalize_renormalize_none sampleUrl samplePath (by decide) (by decide)⟩

/-! ## C5 -/

/-- C5 counterexample: on the spec scenario's raw aggregate, whose
`page_location` has host `example.com`, the reconciler produces no delta at
all (the normalizer accepts only `www.foresight.jp`), so it does not produce
the claimed delta with `newPageviews = 120`.  Moreover the claimed
`newAvgEngagementTime = 10.0` does not match the stated formula:
`900000 / (30 * 1000) = 30`. -/
theorem reconcile_scenario_counterexample :
    match_urls_and_aggregate_optimized [scenarioRaw] scenarioMapping = [] ∧
    (900000 : ℚ) / (30 * 1000) ≠ 10 := by
  constructor
  · decide
  · norm_num

/-- C5 amended: with the host the code accepts
(`https://www.foresight.jp/acct/column/intro/`) the scenario produces exactly
one delta, with `newPageviews = 120` and `newAvgEngagementTime = 30`, the
average engagement time being `totalEngagementTimeMs / (totalSessions * 1000)`
for the scenario's positive session count. -/
theorem reconcile_scenario_amended :
    match_urls_and_aggregate_optimized [scenarioRawFixed] scenarioMapping = [scenarioDelta] ∧
    scenarioDelta.avg_engagement_time = (900000 : ℚ) / (30 * 1000) := by
  constructor
  · show (aggregate_ga4 [scenarioRawFixed]).filterMap (deltaFor scenarioMapping) = _
    rw [show aggregate_ga4 [scenarioRawFixed]
        = [("acct/column/intro/", ⟨120, 40, 30, 900000, 30⟩)] from by decide]
    have hmat : materialB scenarioEntry ⟨120, 40, 30, 900000, 30⟩ = true := by decide
    have havg : avgEngagementTime ⟨120, 40, 30, 900000, 30⟩ = 30 := by
      unfold avgEngagementTime
      rw [if_pos (by norm_num)]
      norm_num
    have hdelta : mkDelta scenarioEntry ⟨120, 40, 30, 900000, 30⟩ = scenarioDelta := by
      simp only [mkDelta, scenarioEntry, scenarioDelta, MetricsDelta.mk.injEq, havg]
      norm_num
      exact fun h => absurd h (by decide)
    simp [deltaFor, scenarioMapping, alookup, hmat, hdelta]
  · norm_num [scenarioDelta]

/-! ## C7 -/

/-- C7: the fallback (tier 2) fetch uses at most `max 3 GA4_DAYS_BACK` tables
(at most 3, or the configured look-back days when that is larger), taken from
the front of the available-tables list. -/
theorem fallback_tier_table_bound (ga4_days_back : Nat) (available_tables : List String) :
    fallback_tables_to_use ga4_days_back available_tables
        = available_tables.take (max 3 ga4_days_back) ∧
      (fallback_tables_to_use ga4_days_back available_tables).length
        ≤ max 3 ga4_days_back :=
  ⟨rfl, List.length_take_le _ _⟩

/-! ## C8 -/

theorem stripChars_subset (p : Char → Bool) (l : List Char) : stripChars p l ⊆ l :=
  fun _ ha => (List.dropWhile_suffix p).subset ((dropTrailing_isPre p (l.dropWhile p)).subset ha)

/-- C8 counterexample: the loader strips neither query strings nor fragments
from a join row's link, so a row with link `intro?x` produces the mapping key
`acct/column/intro?x/`, which contains `?`. -/
theorem mapping_key_counterexample :
    (buildMapping [queryLinkRow]).map Prod.fst = ["acct/column/intro?x/"] ∧
    '?' ∈ ("acct/column/intro?x/").toList := by
  constructor
  · decide
  · decide

/-- C8 amended: every mapping key has the form
`courseSlug ++ "/column/" ++ link'` with `link'` ending in `/`, so the key
always ends with `/`; but the loader never strips `?` or `#`, so the key is
free of query strings and fragments only when the stored slug and link are. -/
theorem mapping_key_wellformed (slug link : List Char) :
    (makePatternChars slug link).getLast? = some '/' ∧
    (∃ nlink, makePatternChars slug link = slug ++ columnMarker ++ nlink ∧
      nlink.getLast? = some '/') ∧
    ('?' ∈ makePatternChars slug link → '?' ∈ slug ∨ '?' ∈ link) ∧
    ('#' ∈ makePatternChars slug link → '#' ∈ slug ∨ '#' ∈ link) := by
  have hlast : (if (stripChars pyWhitespace link).getLast? = some '/' then
      stripChars pyWhitespace link else stripChars pyWhitespace link ++ ['/']).getLast?
        = some '/' := by
    split_ifs with h
    · exact h
    · exact List.getLast?_concat _
  have hne : (if (stripChars pyWhitespace link).getLast? = some '/' then
      stripChars pyWhitespace link else stripChars pyWhitespace link ++ ['/']) ≠ [] := by
    intro hnil
    rw [hnil] at hlast
    cases hlast
  have hmem : ∀ c : Char, c ∈ makePatternChars slug link →
      c ∈ slug ∨ c ∈ columnMarker ∨ c ∈ stripChars pyWhitespace link ∨ c = '/' := by
    intro c hc
    unfold makePatternChars at hc
    rcases List.mem_append.mp hc with hc1 | hc1
    · rcases List.mem_append.mp hc1 with hc2 | hc2
      · exact Or.inl hc2
      · exact Or.inr (Or.inl hc2)
    · split_ifs at hc1 with h
      · exact Or.inr (Or.inr (Or.inl hc1))
      · rcases List.mem_append.mp hc1 with hc2 | hc2
        · exact Or.inr (Or.inr (Or.inl hc2))
        · exact Or.inr (Or.inr (Or.inr (by simpa using hc2)))
  refine ⟨?_, ⟨_, rfl, hlast⟩, ?_, ?_⟩
  · unfold makePatternChars
    rw [List.append_assoc, List.getLast?_append_of_ne_nil _ (by simp [hne]),
      List.getLast?_append_of_ne_nil _ hne]
    exact hlast
  · intro hq
    rcases hmem '?' hq with h | h | h | h
    · exact Or.inl h
    · exact absurd h (by decide)
    · exact Or.inr (stripChars_subset pyWhitespace link h)
    · exact absurd h (by decide)
  · intro hq
    rcases hmem '#' hq with h | h | h | h
    · exact Or.inl h
    · exact absurd h (by decide)
    · exact Or.inr (stripChars_subset pyWhitespace link h)
    · exact absurd h (by decide)

/-- Witness for C8's amended theorem at a concrete slug and link. -/
theorem mapping_key_wellformed_witness :
    (makePatternChars "acct".toList "intro".toList).getLast? = some '/' ∧
    '?' ∉ makePatternChars "acct".toList "intro".toList :=
  ⟨(mapping_key_wellformed "acct".toList "intro".toList).1,
    fun h => by
      rcases (mapping_key_wellformed "acct".toList "intro".toList).2.2.1 h with h1 | h1 <;>
        revert h1 <;> decide⟩

/-! ## C10 -/

/-- C10: when the mapping and the fetched raw data are both nonempty but the
reconciler produces no delta, the pipeline issues no update to the articles
table, reports `status = success` and `updated_records = 0`; the empty delta
set is not a failure (unlike an empty mapping or an empty fetch result). -/
theorem empty_deltas_success (mapping : Mapping) (ga4_data : List RawMetricAggregate)
    (hm : mapping ≠ []) (hg : ga4_data ≠ [])
    (hd : match_urls_and_aggregate_optimized ga4_data mapping = []) :
    (sync_pageviews_optimized mapping ga4_data).outcome.status = "success" ∧
    (sync_pageviews_optimized mapping ga4_data).outcome.updated_records = some 0 ∧
    (sync_pageviews_optimized mapping ga4_data).updateInvoked = false := by
  simp [sync_pageviews_optimized, List.isEmpty_iff, hm, hg, hd]

/-- Witness for C10 on concrete nonempty inputs whose reconciliation is empty. -/
theorem empty_deltas_success_witness :
    match_urls_and_aggregate_optimized quietGa4 quietMapping = [] ∧
    (sync_pageviews_optimized quietMapping quietGa4).outcome.status = "success" ∧
    (sync_pageviews_optimized quietMapping quietGa4).updateInvoked = false :=
  ⟨by decide,
    (empty_deltas_success quietMapping quietGa4 (by decide) (by decide) (by decide)).1,
    (empty_deltas_success quietMapping quietGa4 (by decide) (by decide) (by decide)).2.2⟩

/-! ## C6 -/

/-- C6 counterexample: with a zero-row courses probe the loader returns the
empty mapping and the pipeline fails as claimed, but its failure result does
not carry `mapped_articles = 0`: the returned dict has no such key at all
(modelled as `none`). -/
theorem empty_mapping_result_counterexample :
    (sync_pageviews_optimized (get_courses_articles_mapping_optimized 0 5 1 []) []).outcome.status
        = "failed" ∧
      (sync_pageviews_optimized
          (get_courses_articles_mapping_optimized 0 5 1 []) []).outcome.mapped_articles
        ≠ some 0 := by
  constructor
  · decide
  · decide

/-- C6 amended: a zero-row existence probe for either source table makes the
loader return an empty mapping, and an empty mapping makes the pipeline
terminate with `status = failed` without invoking the metrics fetcher; the
failure result reports no `mapped_articles` count (the key is absent). -/
theorem empty_mapping_short_circuit (courses_count articles_count basic_count : Nat)
    (rows : List ArticleJoinRow) (ga4_data : List RawMetricAggregate) :
    ((courses_count = 0 ∨ articles_count = 0) →
      get_courses_articles_mapping_optimized courses_count articles_count basic_count rows
        = []) ∧
    (get_courses_articles_mapping_optimized courses_count articles_count basic_count rows
        = [] →
      (sync_pageviews_optimized
          (get_courses_articles_mapping_optimized courses_count articles_count basic_count rows)
          ga4_data).outcome.status = "failed" ∧
      (sync_pageviews_optimized
          (get_courses_articles_mapping_optimized courses_count articles_count basic_count rows)
          ga4_data).outcome.mapped_articles = none ∧
      (sync_pageviews_optimized
          (get_courses_articles_mapping_optimized courses_count articles_count basic_count rows)
          ga4_data).fetchInvoked = false) := by
  constructor
  · intro h
    unfold get_courses_articles_mapping_optimized
    rw [if_pos h]
  · intro h
    rw [h]
    exact ⟨rfl, rfl, rfl⟩

/-- Witness for C6's amended theorem with a zero courses probe. -/
theorem empty_mapping_short_circuit_witness :
    get_courses_articles_mapping_optimized 0 5 1 [] = [] ∧
    (sync_pageviews_optimized (get_courses_articles_mapping_optimized 0 5 1 []) []).fetchInvoked
      = false :=
  ⟨(empty_mapping_short_circuit 0 5 1 [] []).1 (Or.inl rfl),
    ((empty_mapping_short_circuit 0 5 1 [] []).2
      ((empty_mapping_short_circuit 0 5 1 [] []).1 (Or.inl rfl))).2.2⟩

/-! ## C2 -/

theorem update_batch_go_fst (bulkOk : List MetricsDelta → Bool) (rowOk : MetricsDelta → Bool) :
    ∀ (fuel : Nat) (l : List MetricsDelta), l.length ≤ fuel →
      (update_batch_go bulkOk rowOk fuel l).1 = l.length := by
  intro fuel
  induction fuel with
  | zero =>
      intro l hl
      rw [Nat.le_zero, List.length_eq_zero] at hl
      subst hl
      rfl
  | succ n ih =>
      intro l hl
      match l with
      | [] => rfl
      | x :: xs =>
          have hrest : ((x :: xs).drop BULK_INSERT_BATCH_SIZE).length ≤ n := by
            rw [List.length_drop]
            simp only [List.length_cons] at hl ⊢
            have : 0 < BULK_INSERT_BATCH_SIZE := by decide
            omega
          simp only [update_batch_go]
          split_ifs with hb <;>
            simp [ih _ hrest, List.length_take, List.length_drop] <;> omega

theorem update_batch_go_applied_sub (bulkOk : List MetricsDelta → Bool)
    (rowOk : MetricsDelta → Bool) :
    ∀ (fuel : Nat) (l : List MetricsDelta) (d : MetricsDelta),
      d ∈ (update_batch_go bulkOk rowOk fuel l).2 → d ∈ l := by
  intro fuel
  induction fuel with
  | zero => intro l d hd; simp [update_batch_go] at hd
  | succ n ih =>
      intro l d hd
      match l with
      | [] => simp [update_batch_go] at hd
      | x :: xs =>
          simp only [update_batch_go, update_pageviews_individual_optimized] at hd
          split_ifs at hd with hb <;>
            rcases List.mem_append.mp hd with h1 | h1
          · exact List.take_subset _ _ h1
          · exact List.drop_subset _ _ (ih _ _ h1)
          · exact List.take_subset _ _ (List.mem_of_mem_filter h1)
          · exact List.drop_subset _ _ (ih _ _ h1)

theorem update_batch_go_applied_of_rowOk (bulkOk : List MetricsDelta → Bool)
    (rowOk : MetricsDelta → Bool) :
    ∀ (fuel : Nat) (l : List MetricsDelta), l.length ≤ fuel →
      ∀ d ∈ l, rowOk d = true → d ∈ (update_batch_go bulkOk rowOk fuel l).2 := by
  intro fuel
  induction fuel with
  | zero =>
      intro l hl d hd _
      rw [Nat.le_zero, List.length_eq_zero] at hl
      subst hl
      cases hd
  | succ n ih =>
      intro l hl d hd hrow
      match l with
      | [] => cases hd
      | x :: xs =>
          have hrest : ((x :: xs).drop BULK_INSERT_BATCH_SIZE).length ≤ n := by
            rw [List.length_drop]
            simp only [List.length_cons] at hl ⊢
            have : 0 < BULK_INSERT_BATCH_SIZE := by decide
            omega
          rw [← List.take_append_drop BULK_INSERT_BATCH_SIZE (x :: xs)] at hd
          simp only [update_batch_go]
          rcases List.mem_append.mp hd with h1 | h1
          · split_ifs with hb
            · exact List.mem_append.mpr (Or.inl h1)
            · refine List.mem_append.mpr (Or.inl ?_)
              simp only [update_pageviews_individual_optimized]
              exact List.mem_filter.mpr ⟨h1, hrow⟩
          · split_ifs with hb <;>
              exact List.mem_append.mpr (Or.inr (ih _ hrest d h1 hrow))

theorem update_batch_go_all_bulk_fail (rowOk : MetricsDelta → Bool) :
    ∀ (fuel : Nat) (l : List MetricsDelta), l.length ≤ fuel →
      (update_batch_go (fun _ => false) rowOk fuel l).2 = l.filter rowOk := by
  intro fuel
  induction fuel with
  | zero =>
      intro l hl
      rw [Nat.le_zero, List.length_eq_zero] at hl
      subst hl
      rfl
  | succ n ih =>
      intro l hl
      match l with
      | [] => rfl
      | x :: xs =>
          have hrest : ((x :: xs).drop BULK_INSERT_BATCH_SIZE).length ≤ n := by
            rw [List.length_drop]
            simp only [List.length_cons] at hl ⊢
            have : 0 < BULK_INSERT_BATCH_SIZE := by decide
            omega
          simp only [update_batch_go, if_neg Bool.false_ne_true,
            update_pageviews_individual_optimized, ih _ hrest]
          rw [← List.filter_append,
            List.take_append_drop BULK_INSERT_BATCH_SIZE (x :: xs)]

/-- C2 counterexample: one batch of two deltas whose bulk statement fails and
whose per-row fallback succeeds only for the first delta.  The dispatcher's
final counter (the only count it reports, via its log; the Python function
returns `None`) is 2 while only 1 delta was applied, so the reported applied
count does not reflect only the successes. -/
theorem update_dispatcher_count_counterexample :
    (update_pageviews_batch_optimized (fun _ => false) rowOkA [deltaA, deltaB]).1
      ≠ ((update_pageviews_batch_optimized (fun _ => false) rowOkA [deltaA, deltaB]).2).length := by
  decide

/-- C2 amended: the dispatcher never raises for partial failures (failures are
absorbed by the oracles' false outcomes); when a batch's bulk statement fails,
every delta in it whose individual update succeeds is still applied and the
failing ones are skipped; every applied delta comes from the input; but the
dispatcher returns `None` in Python, and the aggregate counter it logs always
equals the total number of dispatched deltas, counting failed individual
updates as applied. -/
theorem update_dispatcher_amended (bulkOk : List MetricsDelta → Bool)
    (rowOk : MetricsDelta → Bool) (pageviews_updates : List MetricsDelta) :
    (update_pageviews_batch_optimized bulkOk rowOk pageviews_updates).1
        = pageviews_updates.length ∧
    (∀ d ∈ pageviews_updates, rowOk d = true →
      d ∈ (update_pageviews_batch_optimized bulkOk rowOk pageviews_updates).2) ∧
    (∀ d ∈ (update_pageviews_batch_optimized bulkOk rowOk pageviews_updates).2,
      d ∈ pageviews_updates) ∧
    (update_pageviews_batch_optimized (fun _ => false) rowOk pageviews_updates).2
        = pageviews_updates.filter rowOk :=
  ⟨update_batch_go_fst bulkOk rowOk _ _ (Nat.le_refl _),
    fun d hd hrow => update_batch_go_applied_of_rowOk bulkOk rowOk _ _ (Nat.le_refl _) d hd hrow,
    fun d hd => update_batch_go_applied_sub bulkOk rowOk _ _ d hd,
    update_batch_go_all_bulk_fail rowOk _ _ (Nat.le_refl _)⟩

/-- Witness for C2's amended theorem on the concrete failing batch. -/
theorem update_dispatcher_amended_witness :
    (update_pageviews_batch_optimized (fun _ => false) rowOkA [deltaA, deltaB]).1 = 2 ∧
    deltaA ∈ (update_pageviews_batch_optimized (fun _ => false) rowOkA [deltaA, deltaB]).2 :=
  ⟨(update_dispatcher_amended (fun _ => false) rowOkA [deltaA, deltaB]).1.trans rfl,
    (update_dispatcher_amended (fun _ => false) rowOkA [deltaA, deltaB]).2.1 deltaA
      (by decide) (by decide)⟩

/-! ## C4 and C1: aggregate-key and delta-origin machinery -/

theorem keys_addToPathMetrics (pm : List (String × PathMetrics)) (path : String)
    (r : RawMetricAggregate) :
    (addToPathMetrics pm path r).map Prod.fst
      = if path ∈ pm.map Prod.fst then pm.map Prod.fst else pm.map Prod.fst ++ [path] := by
  unfold addToPathMetrics
  cases hl : alookup path pm with
  | some v =>
      rw [if_pos (not_not.mp (fun hnm => by rw [alookup_eq_none_iff.mpr hnm] at hl; cases hl))]
      rw [List.map_map]
      apply List.map_congr_left
      intro kv _
      by_cases h : kv.1 = path <;> simp [h]
  | none =>
      rw [if_neg (alookup_eq_none_iff.mp hl)]
      simp

theorem nodup_keys_aggStep (pm : List (String × PathMetrics)) (item : RawMetricAggregate)
    (h : (pm.map Prod.fst).Nodup) : ((aggStep pm item).map Prod.fst).Nodup := by
  unfold aggStep
  cases normalize_ga4_url item.page_location with
  | none => exact h
  | some path =>
      rw [keys_addToPathMetrics]
      split_ifs with hmem
      · exact h
      · simp [List.nodup_append, h, hmem]

theorem nodup_keys_aggFold (ga4_data : List RawMetricAggregate) :
    ∀ pm, (pm.map Prod.fst).Nodup → ((ga4_data.foldl aggStep pm).map Prod.fst).Nodup := by
  induction ga4_data with
  | nil => intro pm h; exact h
  | cons x xs ih => intro pm h; exact ih _ (nodup_keys_aggStep pm x h)

theorem aggregate_keys_nodup (ga4_data : List RawMetricAggregate) :
    ((aggregate_ga4 ga4_data).map Prod.fst).Nodup :=
  nodup_keys_aggFold ga4_data [] (by simp)

theorem deltaFor_eq_none_entry {url_patterns : Mapping} {path : String} {m : PathMetrics}
    (hl : alookup path url_patterns = none) : deltaFor url_patterns (path, m) = none := by
  simp only [deltaFor]
  rw [hl]

theorem deltaFor_eq_some_entry {url_patterns : Mapping} {path : String} {m : PathMetrics}
    {e : ContentMappingEntry} (hl : alookup path url_patterns = some e) :
    deltaFor url_patterns (path, m)
      = if materialB e m = true then some (mkDelta e m) else none := by
  simp only [deltaFor]
  rw [hl]

/-- Inversion: where a delta in the reconciler's output comes from. -/
theorem mem_reconcile_inv {ga4_data : List RawMetricAggregate} {url_patterns : Mapping}
    {d : MetricsDelta} (hd : d ∈ match_urls_and_aggregate_optimized ga4_data url_patterns) :
    ∃ path m e, (path, m) ∈ aggregate_ga4 ga4_data ∧ alookup path url_patterns = some e ∧
      materialB e m = true ∧ d = mkDelta e m := by
  obtain ⟨⟨path, m⟩, hmem, hf⟩ := List.mem_filterMap.mp hd
  cases hl : alookup path url_patterns with
  | none => rw [deltaFor_eq_none_entry hl] at hf; cases hf
  | some e =>
      rw [deltaFor_eq_some_entry hl] at hf
      split_ifs at hf with hbm
      exact ⟨path, m, e, hmem, hl, hbm, (Option.some.inj hf).symm⟩

/-- The materiality test vanishes on an entry whose current snapshot equals
the freshly aggregated values. -/
theorem materialB_updated_false (e : ContentMappingEntry) (m : PathMetrics) :
    materialB
      { e with
        current_pageviews := m.pageviews
        current_organic_sessions := m.organic_sessions
        current_engaged_sessions := m.engaged_sessions
        current_avg_engagement_time := avgEngagementTime m } m = false := by
  unfold materialB
  simp [sub_self, abs_zero]

/-! ## C4 -/

/-- C4: for a normalized path whose aggregate is `m` and which matches mapping
entry `e`, the reconciler emits a delta for that path exactly when some metric
differs materially: a nonzero absolute difference in one of the integer
counters, or an absolute average-engagement-time difference above 0.1
seconds.  The emitted delta is an element of the reconciler's output. -/
theorem reconcile_materiality (ga4_data : List RawMetricAggregate) (url_patterns : Mapping)
    (path : String) (m : PathMetrics) (e : ContentMappingEntry)
    (hmem : (path, m) ∈ aggregate_ga4 ga4_data)
    (hlook : alookup path url_patterns = some e) :
    ((deltaFor url_patterns (path, m)).isSome ↔
      (|e.current_pageviews - m.pageviews| ≠ 0 ∨
        |e.current_organic_sessions - m.organic_sessions| ≠ 0 ∨
        |e.current_engaged_sessions - m.engaged_sessions| ≠ 0 ∨
        |e.current_avg_engagement_time - avgEngagementTime m| > 1 / 10)) ∧
    (∀ d, deltaFor url_patterns (path, m) = some d →
      d ∈ match_urls_and_aggregate_optimized ga4_data url_patterns) := by
  constructor
  · rw [deltaFor_eq_some_entry hlook]
    split_ifs with hb
    · simp only [Option.isSome_some, true_iff]
      unfold materialB at hb
      simpa [abs_pos, abs_ne_zero, or_assoc] using hb
    · simp only [Option.isSome_none]
      constructor
      · intro hco
        cases hco
      · intro hspec
        exfalso
        apply hb
        unfold materialB
        simpa [abs_pos, abs_ne_zero, or_assoc] using hspec
  · intro d hd
    exact List.mem_filterMap.mpr ⟨(path, m), hmem, hd⟩

/-- Witness for C4 on a concrete matched, material path. -/
theorem reconcile_materiality_witness :
    mkDelta matEntry ⟨7, 0, 0, 0, 0⟩ ∈ match_urls_and_aggregate_optimized matGa4 matMapping :=
  (reconcile_materiality matGa4 matMapping "b/column/y/" ⟨7, 0, 0, 0, 0⟩ matEntry
      (by decide) (by decide)).2 _ (by decide)

/-! ## C1 -/

/-- C1 counterexample: the reconciler is a pure function, so a second run with
identical raw metrics and an identical mapping snapshot returns the very same
delta list as the first run; on this input that list is nonempty, not empty as
the claim states. -/
theorem reconcile_rerun_counterexample :
    match_urls_and_aggregate_optimized rerunGa4 rerunMapping ≠ [] := by
  decide

/-- C1 amended: re-running the reconciler with identical raw metrics yields
zero deltas once the mapping snapshot reflects the first run's applied deltas
(as a reload after the warehouse update does), provided article ids are
unique across mapping entries.  With an unchanged (identical) snapshot the
second run instead repeats the first run's deltas verbatim. -/
theorem reconcile_rerun_after_apply (ga4_data : List RawMetricAggregate) (mapping : Mapping)
    (hids : (mapping.map (fun kv => kv.2.article_id)).Nodup) :
    match_urls_and_aggregate_optimized ga4_data
      (applyDeltas (match_urls_and_aggregate_optimized ga4_data mapping) mapping) = [] := by
  set ds := match_urls_and_aggregate_optimized ga4_data mapping with hds
  rw [match_urls_and_aggregate_optimized, List.filterMap_eq_nil_iff]
  rintro ⟨path, m⟩ hmem
  have hmap : alookup path (applyDeltas ds mapping)
      = (alookup path mapping).map (updEntry ds) := by
    unfold applyDeltas
    exact alookup_map_value (updEntry ds) path mapping
  cases hl : alookup path mapping with
  | none =>
      exact deltaFor_eq_none_entry (by rw [hmap, hl]; rfl)
  | some e =>
      have hl' : alookup path (applyDeltas ds mapping) = some (updEntry ds e) := by
        rw [hmap, hl]
        rfl
      rw [deltaFor_eq_some_entry hl']
      have huniq : ∀ d' ∈ ds, d'.article_id = e.article_id →
          d' = mkDelta e m ∧ materialB e m = true := by
        intro d' hd' hid
        obtain ⟨p₂, m₂, e₂, hm₂, hl₂, hb₂, hdeq⟩ := mem_reconcile_inv hd'
        have hide : e₂.article_id = e.article_id := by rw [hdeq] at hid; exact hid
        have hpe : (p₂, e₂) = (path, e) :=
          List.inj_on_of_nodup_map hids (mem_of_alookup_eq_some hl₂)
            (mem_of_alookup_eq_some hl) hide
        have hp : p₂ = path := congrArg Prod.fst hpe
        have he : e₂ = e := congrArg Prod.snd hpe
        rw [hp] at hm₂
        have hm : m₂ = m :=
          value_eq_of_mem_of_nodup (aggregate_keys_nodup ga4_data) hm₂ hmem
        rw [he, hm] at hdeq hb₂
        exact ⟨hdeq, hb₂⟩
      cases hmat : materialB e m with
      | true =>
          have hdin : mkDelta e m ∈ ds := by
            rw [hds, match_urls_and_aggregate_optimized]
            refine List.mem_filterMap.mpr ⟨(path, m), hmem, ?_⟩
            rw [deltaFor_eq_some_entry hl, if_pos hmat]
          have hfind : ds.find? (fun d => d.article_id == e.article_id)
              = some (mkDelta e m) := by
            cases hf : ds.find? (fun d => d.article_id == e.article_id) with
            | none =>
                exact absurd (show ((mkDelta e m).article_id == e.article_id) = true by
                  simp [mkDelta]) (List.find?_eq_none.mp hf _ hdin)
            | some d' =>
                have hd'ds := List.mem_of_find?_eq_some hf
                have hpred := List.find?_some hf
                have hid : d'.article_id = e.article_id := by simpa using hpred
                rw [(huniq d' hd'ds hid).1]
          have hupd : updEntry ds e
              = { e with
                  current_pageviews := m.pageviews
                  current_organic_sessions := m.organic_sessions
                  current_engaged_sessions := m.engaged_sessions
                  current_avg_engagement_time := avgEngagementTime m } := by
            unfold updEntry
            rw [hfind]
            rfl
          simp [hupd, materialB_updated_false e m]
      | false =>
          have hfind : ds.find? (fun d => d.article_id == e.article_id) = none := by
            rw [List.find?_eq_none]
            intro d' hd' hpred
            have hid : d'.article_id = e.article_id := by simpa using hpred
            rw [(huniq d' hd' hid).2] at hmat
            cases hmat
          have hupd : updEntry ds e = e := by
            unfold updEntry
            rw [hfind]
          simp [hupd, hmat]

/-- Witness for C1's amended theorem on a concrete material input. -/
theorem reconcile_rerun_after_apply_witness :
    (rerunMapping.map (fun kv => kv.2.article_id)).Nodup ∧
    match_urls_and_aggregate_optimized rerunGa4
      (applyDeltas (match_urls_and_aggregate_optimized rerunGa4 rerunMapping) rerunMapping)
      = [] :=
  ⟨by decide, reconcile_rerun_after_apply rerunGa4 rerunMapping (by decide)⟩

end GA4Sync
